import Mathlib

/-!
Verification development for the ai-voice-automation-api appointment backend.

The relevant source is shallowly embedded:
* instants (UTC) and minute quantities are `Int` minutes;
* civil dates are day numbers (`Int`), with weekday `d % 7` (the repository
  parses `YYYY-MM-DD` strings; the verified properties only depend on the
  affine relation between a civil date/time and its UTC instant, so the
  business timezone is modelled as a fixed offset in minutes and calendar
  string parsing is elided);
* civil times stay `HH:mm` strings, parsed exactly as the source does
  (`time.split(':').map(Number)` then `h * 60 + m`);
* the database is a list of appointment records; each fallible operation
  returns `Except ServiceError`.
-/

deriving instance DecidableEq for Except

namespace VoiceApi

/-- Appointment status enumeration (`src/types/appointment.types.ts`). -/
inductive AppointmentStatus where
  | scheduled
  | confirmed
  | cancelled
  | completed
  | no_show
  | rescheduled
deriving DecidableEq, Repr, Fintype

/-- The status string stored in the database for each status value. -/
def statusStr : AppointmentStatus → String
  | .scheduled => "scheduled"
  | .confirmed => "confirmed"
  | .cancelled => "cancelled"
  | .completed => "completed"
  | .no_show => "no_show"
  | .rescheduled => "rescheduled"

/-- An appointment row (`Appointment` in `src/types/appointment.types.ts`).
Instants are UTC minutes; the civil date is a day number. -/
structure Appointment where
  id : Nat
  user_id : Nat
  patient_name : String
  patient_phone : String
  appointment_date : Int
  appointment_time : String
  start_time_utc : Int
  end_time_utc : Int
  duration_minutes : Int
  reason : Option String
  status : AppointmentStatus
  call_sid : Option String
  session_id : Option String
  notes : Option String
  created_at : Int
  updated_at : Int
deriving DecidableEq, Repr

/-- A user row (`User` in `src/types/appointment.types.ts`), restricted to the
fields the verified operations read or write. -/
structure User where
  id : Nat
  phone_number : Option String
  name : Option String
  total_appointments : Int
deriving DecidableEq, Repr

/-- `CreateAppointmentInput` from `src/types/appointment.types.ts`. -/
structure CreateAppointmentInput where
  patientName : String
  patientPhone : String
  appointmentDate : Int
  appointmentTime : String
  reason : Option String
  callSid : Option String
  sessionId : Option String
  durationMinutes : Option Int
deriving DecidableEq, Repr

/-- `UpdateAppointmentInput` from `src/types/appointment.types.ts`. -/
structure UpdateAppointmentInput where
  appointmentDate : Option Int
  appointmentTime : Option String
  reason : Option String
  status : Option AppointmentStatus
  notes : Option String
deriving DecidableEq, Repr

/-- Business configuration (`src/config/env.ts`).  `tzOffsetMinutes` models the
business IANA timezone as a fixed UTC offset (wall clock = UTC + offset is
inverted here: UTC = wall clock − offset). -/
structure Config where
  BUSINESS_TIMEZONE : String
  BUSINESS_HOURS_START : String
  BUSINESS_HOURS_END : String
  BUSINESS_DAYS : List Int
  APPOINTMENT_DURATION_MINUTES : Int
  APPOINTMENT_BUFFER_MINUTES : Int
  tzOffsetMinutes : Int
deriving Repr

/-- JavaScript `toLowerCase`, written over the character list so that it
evaluates by kernel reduction. -/
def toLowerStr (p : String) : String :=
  String.mk (p.toList.map Char.toLower)

/-- JavaScript `String.prototype.startsWith`, over character lists. -/
def strStartsWith (s pat : String) : Bool :=
  List.isPrefixOf pat.toList s.toList

/-- JavaScript `String.prototype.substring(n)`, over character lists. -/
def strDrop (s : String) (n : Nat) : String :=
  String.mk (s.toList.drop n)

/-- Accumulator for decimal digit parsing. -/
def digitsToNatAux : List Char → Nat → Option Nat
  | [], acc => some acc
  | c :: cs, acc =>
    if c.isDigit then digitsToNatAux cs (acc * 10 + (c.toNat - 48)) else none

/-- JavaScript `Number(...)` on the digit strings the code feeds it (a
non-digit or empty input stands for `NaN`, modelled as `none`). -/
def strToNat? (s : String) : Option Nat :=
  match s.toList with
  | [] => none
  | cs => digitsToNatAux cs 0

/-- `str.split(':')`, over character lists. -/
def splitOnColonAux : List Char → List Char → List String
  | [], acc => [String.mk acc.reverse]
  | c :: cs, acc =>
    if c = ':' then String.mk acc.reverse :: splitOnColonAux cs []
    else splitOnColonAux cs (c :: acc)

/-- `str.split(':')` on a string. -/
def splitOnColon (t : String) : List String :=
  splitOnColonAux t.toList []

/-- `time.split(':').map(Number)` followed by `hours * 60 + minutes`, for a
well-formed `HH:mm` string (malformed strings fall back to `0`, standing in
for JavaScript `NaN` propagation which no verified claim exercises). -/
def timeToMin (t : String) : Int :=
  match (splitOnColon t).map (fun s => (((strToNat? s).getD 0 : Nat) : Int)) with
  | [h, m] => h * 60 + m
  | _ => 0

/-- `businessHoursStart` derived in `src/config/env.ts`. -/
def businessHoursStart (cfg : Config) : Int :=
  timeToMin cfg.BUSINESS_HOURS_START

/-- `businessHoursEnd` derived in `src/config/env.ts`. -/
def businessHoursEnd (cfg : Config) : Int :=
  timeToMin cfg.BUSINESS_HOURS_END

/-- JavaScript `Date.prototype.getDay` on the day-number model. -/
def dayOfWeek (d : Int) : Int := d % 7

/-- `localToUtc` (`src/utils/date.utils.ts`): localize a civil date/time in the
business timezone and convert to a UTC instant. -/
def localToUtc (cfg : Config) (d : Int) (t : String) : Int :=
  d * 1440 + timeToMin t - cfg.tzOffsetMinutes

/-- `addMinutes` from date-fns. -/
def addMinutes (x m : Int) : Int := x + m

/-- `calculateEndTime` (`src/utils/date.utils.ts`): `start + durationMinutes`. -/
def calculateEndTime (startTime durationMinutes : Int) : Int :=
  addMinutes startTime durationMinutes

/-- date-fns `isWithinInterval` (inclusive on both ends). -/
def isWithinInterval (x s e : Int) : Bool :=
  decide (s ≤ x) && decide (x ≤ e)

/-- date-fns `isBefore`. -/
def isBefore (a b : Int) : Bool := decide (a < b)

/-- date-fns `isAfter`. -/
def isAfter (a b : Int) : Bool := decide (a > b)

/-- `hasTimeConflict` (`src/utils/date.utils.ts`): expand the existing interval
by the buffer on both sides, then test whether the new interval starts or ends
inside the expanded interval, or wraps it entirely. -/
def hasTimeConflict (newStart newEnd existingStart existingEnd bufferMinutes : Int) : Bool :=
  let bufferedExistingStart := addMinutes existingStart (-bufferMinutes)
  let bufferedExistingEnd := addMinutes existingEnd bufferMinutes
  let newStartsWithinExisting := isWithinInterval newStart bufferedExistingStart bufferedExistingEnd
  let newEndsWithinExisting := isWithinInterval newEnd bufferedExistingStart bufferedExistingEnd
  let newWrapsExisting :=
    isBefore newStart bufferedExistingStart && isAfter newEnd bufferedExistingEnd
  newStartsWithinExisting || newEndsWithinExisting || newWrapsExisting

/-- `isWithinBusinessHours` (`src/utils/date.utils.ts`): the weekday must be a
configured business day and the minute-of-day must lie inside the configured
bounds (inclusive on both ends). -/
def isWithinBusinessHours (cfg : Config) (d : Int) (t : String) : Bool :=
  if !(cfg.BUSINESS_DAYS.contains (dayOfWeek d)) then
    false
  else
    let timeInMinutes := timeToMin t
    decide (timeInMinutes ≥ businessHoursStart cfg) &&
      decide (timeInMinutes ≤ businessHoursEnd cfg)

/-- `isPastDateTime` (`src/utils/date.utils.ts`): the localized instant is
strictly before now. -/
def isPastDateTime (cfg : Config) (now : Int) (d : Int) (t : String) : Bool :=
  isBefore (localToUtc cfg d t) now

/-- `isAnonymousCaller` (`src/utils/phone.utils.ts`).  `none` models a missing
value; the empty string is falsy in JavaScript, hence also anonymous. -/
def isAnonymousCaller (phone : Option String) : Bool :=
  match phone with
  | none => true
  | some p =>
    if p = "" then true
    else
      let lowerPhone := toLowerStr p
      lowerPhone == "anonymous" || lowerPhone == "restricted" ||
        lowerPhone == "blocked" || lowerPhone == "unknown" ||
        lowerPhone == "" || lowerPhone == "+"

/-- The digits kept by `phone.replace(/\D/g, '')`. -/
def cleanDigits (p : String) : String :=
  String.mk (p.toList.filter Char.isDigit)

/-- `normalizePhoneNumber` (`src/utils/phone.utils.ts`): canonicalize to a
dialing-code-prefixed digit string, or `none` for anonymous / too-short
inputs. -/
def normalizePhoneNumber (phone : Option String)
    (defaultCountryCode : String := "+1") : Option String :=
  if isAnonymousCaller phone then none
  else
    match phone with
    | none => none
    | some p =>
      let cleaned := cleanDigits p
      if cleaned.length < 10 then none
      else if !(strStartsWith p "+") && cleaned.length = 11 && strStartsWith cleaned "1" then
        some ("+" ++ cleaned)
      else if !(strStartsWith p "+") then
        let cleaned2 :=
          if strStartsWith cleaned "1" && cleaned.length = 11 then strDrop cleaned 1
          else cleaned
        some (defaultCountryCode ++ cleaned2)
      else
        some ("+" ++ cleaned)

/-- `arePhoneNumbersEqual` (`src/utils/phone.utils.ts`): strip non-digits and
compare the last ten digits only. -/
def arePhoneNumbersEqual (phone1 phone2 : String) : Bool :=
  let cleaned1 := cleanDigits phone1
  let cleaned2 := cleanDigits phone2
  let suffix1 := String.mk (cleaned1.toList.drop (cleaned1.length - 10))
  let suffix2 := String.mk (cleaned2.toList.drop (cleaned2.length - 10))
  suffix1 == suffix2

/-- JavaScript truthiness of a nullable string (`null`/`undefined` and the
empty string are falsy). -/
def optTruthy : Option String → Bool
  | none => false
  | some s => !(s = "")

/-- `UserService.matchPhoneNumbers` (`src/services/user.service.ts`):
normalize both numbers; unequal or unnormalizable numbers never match. -/
def matchPhoneNumbers (phone1 phone2 : String) : Bool :=
  let normalized1 := normalizePhoneNumber (some phone1)
  let normalized2 := normalizePhoneNumber (some phone2)
  if !(optTruthy normalized1) || !(optTruthy normalized2) then false
  else normalized1 == normalized2

/-- The operational error taxonomy of `src/utils/errors.ts`, restricted to the
kinds the embedded operations raise.  `conflict` carries the conflicting ids
from its `context.conflicts`; `notFound` carries resource and identifier. -/
inductive ServiceError where
  | validation (message : String)
  | businessRule (message : String)
  | conflict (message : String) (conflictIds : List Nat)
  | notFound (resource identifier : String)
  | database (message : String)
deriving DecidableEq, Repr

/-- The `.message` of each error (for `NotFoundError` the constructor builds
`"<resource> with identifier '<id>' not found"`). -/
def serviceErrorMessage : ServiceError → String
  | .validation m => m
  | .businessRule m => m
  | .conflict m _ => m
  | .notFound r i => s!"{r} with identifier \x27{i}\x27 not found"
  | .database m => m

/-- JavaScript `v || dflt` on a nullable number (`0` is falsy). -/
def orDefaultNum (v : Option Int) (dflt : Int) : Int :=
  match v with
  | some n => if n = 0 then dflt else n
  | none => dflt

/-- JavaScript `v || dflt` on a nullable string (`null`/`""` are falsy). -/
def jsOrStr (v : Option String) (dflt : String) : String :=
  match v with
  | some s => if s = "" then dflt else s
  | none => dflt

/-- JavaScript `v || null` on a nullable string. -/
def jsOrNull (v : Option String) : Option String :=
  if optTruthy v then v else none

/-- `AppointmentRepository.findById` (`src/repositories/appointment.repository.ts`):
the first row with the given id, else `NotFoundError`. -/
def repoFindById (db : List Appointment) (appointmentId : Nat) :
    Except ServiceError Appointment :=
  match db.find? (fun a => a.id = appointmentId) with
  | some a => .ok a
  | none => .error (.notFound "Appointment" (toString appointmentId))

/-- `AppointmentRepository.findConflicts`
(`src/repositories/appointment.repository.ts`): rows whose status is
`scheduled` or `confirmed` and whose stored interval satisfies
`start_time_utc ≤ endTimeUtc ∧ end_time_utc ≥ startTimeUtc` (the supabase
`lte`/`gte` pair), minus the optionally excluded id. -/
def findConflicts (db : List Appointment) (startTimeUtc endTimeUtc : Int)
    (excludeAppointmentId : Option Nat) : List Appointment :=
  db.filter (fun a =>
    (decide (a.status = .scheduled) || decide (a.status = .confirmed)) &&
    decide (a.start_time_utc ≤ endTimeUtc) &&
    decide (a.end_time_utc ≥ startTimeUtc) &&
    (match excludeAppointmentId with
     | some i => decide (a.id ≠ i)
     | none => true))

/-- `AppointmentRepository.create`: build the row inserted by `create`
(status `scheduled`, UTC interval derived from the civil fields, falsy
`reason`/`callSid`/`sessionId` stored as null) and append it. -/
def repoCreate (cfg : Config) (now : Int) (db : List Appointment) (freshId : Nat)
    (input : CreateAppointmentInput) (userId : Nat) : Appointment × List Appointment :=
  let startTimeUtc := localToUtc cfg input.appointmentDate input.appointmentTime
  let durationMinutes := orDefaultNum input.durationMinutes cfg.APPOINTMENT_DURATION_MINUTES
  let endTimeUtc := calculateEndTime startTimeUtc durationMinutes
  let appointment : Appointment :=
    { id := freshId
      user_id := userId
      patient_name := input.patientName
      patient_phone := input.patientPhone
      appointment_date := input.appointmentDate
      appointment_time := input.appointmentTime
      start_time_utc := startTimeUtc
      end_time_utc := endTimeUtc
      duration_minutes := durationMinutes
      reason := jsOrNull input.reason
      status := .scheduled
      call_sid := jsOrNull input.callSid
      session_id := jsOrNull input.sessionId
      notes := none
      created_at := now
      updated_at := now }
  (appointment, db ++ [appointment])

/-- `UserRepository.createAnonymousUser`: a fresh user with no phone key. -/
def createAnonymousUser (users : List User) (freshUserId : Nat) : User × List User :=
  let user : User := { id := freshUserId, phone_number := none, name := none,
                       total_appointments := 0 }
  (user, users ++ [user])

/-- `UserRepository.findByPhone`: look up by normalized phone key. -/
def findByPhone (users : List User) (phoneNumber : Option String) : Option User :=
  users.find? (fun u => u.phone_number == phoneNumber)

/-- `UserRepository.findOrCreate`: normalize; anonymous fallback on failure;
reuse an existing row or insert a fresh one (falsy name stored as null). -/
def findOrCreate (users : List User) (freshUserId : Nat) (phoneNumber : String)
    (name : Option String) : User × List User :=
  match normalizePhoneNumber (some phoneNumber) with
  | none => createAnonymousUser users freshUserId
  | some normalizedPhone =>
    match findByPhone users (some normalizedPhone) with
    | some existingUser => (existingUser, users)
    | none =>
      let user : User := { id := freshUserId, phone_number := some normalizedPhone,
                           name := jsOrNull name, total_appointments := 0 }
      (user, users ++ [user])

/-- `UserRepository.incrementAppointmentCount` (best-effort counter bump). -/
def incrementAppointmentCount (users : List User) (userId : Nat) : List User :=
  users.map (fun u =>
    if u.id = userId then { u with total_appointments := u.total_appointments + 1 } else u)

/-- `AppointmentService.validateAppointmentTime`: reject past instants, then
out-of-business-hours instants, with `BusinessRuleError`. -/
def validateAppointmentTime (cfg : Config) (now : Int) (d : Int) (t : String) :
    Except ServiceError Unit :=
  if isPastDateTime cfg now d t then
    .error (.businessRule "Cannot schedule appointment in the past")
  else if !(isWithinBusinessHours cfg d t) then
    .error (.businessRule
      (s!"Appointments must be scheduled during business hours: " ++
        s!"{cfg.BUSINESS_HOURS_START} - {cfg.BUSINESS_HOURS_END} {cfg.BUSINESS_TIMEZONE}"))
  else
    .ok ()

/-- The `conflictTimes` string interpolated into the `ConflictError` message. -/
def conflictTimes (conflicts : List Appointment) : String :=
  String.intercalate ", "
    (conflicts.map (fun a => s!"{a.appointment_date} at {a.appointment_time}"))

/-- `AppointmentService.checkConflicts`: derive the UTC interval of the
requested slot (always with the configured default duration), widen it by the
configured buffer, and raise `ConflictError` carrying the conflicting ids when
the repository reports any overlap. -/
def checkConflicts (cfg : Config) (db : List Appointment) (d : Int) (t : String)
    (excludeAppointmentId : Option Nat) : Except ServiceError Unit :=
  let startTimeUtc := localToUtc cfg d t
  let endTimeUtc := calculateEndTime startTimeUtc cfg.APPOINTMENT_DURATION_MINUTES
  let bufferedStart := addMinutes startTimeUtc (-cfg.APPOINTMENT_BUFFER_MINUTES)
  let bufferedEnd := addMinutes endTimeUtc cfg.APPOINTMENT_BUFFER_MINUTES
  let conflicts := findConflicts db bufferedStart bufferedEnd excludeAppointmentId
  if conflicts.length > 0 then
    .error (.conflict
      (s!"Time slot conflicts with existing appointment(s): {conflictTimes conflicts}")
      (conflicts.map (fun a => a.id)))
  else
    .ok ()

/-- The transition table of `AppointmentService.validateStatusTransition`. -/
def validTransitions : AppointmentStatus → List AppointmentStatus
  | .scheduled => [.confirmed, .cancelled, .rescheduled]
  | .confirmed => [.completed, .cancelled, .no_show, .rescheduled]
  | .cancelled => []
  | .completed => []
  | .no_show => [.rescheduled]
  | .rescheduled => [.scheduled]

/-- The `BusinessRuleError` message for an illegal transition. -/
def invalidTransitionMsg (currentStatus newStatus : AppointmentStatus) : String :=
  s!"Invalid status transition from \x27{statusStr currentStatus}\x27 " ++
    s!"to \x27{statusStr newStatus}\x27"

/-- `AppointmentService.validateStatusTransition`: absent new status passes;
otherwise the pair must be in the table. -/
def validateStatusTransition (currentStatus : AppointmentStatus)
    (newStatus : Option AppointmentStatus) : Except ServiceError Unit :=
  match newStatus with
  | none => .ok ()
  | some ns =>
    if (validTransitions currentStatus).contains ns then .ok ()
    else .error (.businessRule (invalidTransitionMsg currentStatus ns))

/-- `AppointmentService.createAppointment`: normalize the caller phone (raw
fallback), normalize the patient phone in place when it canonicalizes, find or
create the user, validate time and conflicts, persist, bump the counter.
`freshUserId`/`freshApptId` stand for store-assigned identities. -/
def createAppointment (cfg : Config) (now : Int) (users : List User)
    (db : List Appointment) (freshUserId freshApptId : Nat)
    (input : CreateAppointmentInput) (phoneNumber : String) :
    Except ServiceError (Appointment × List User × List Appointment) :=
  let normalizedPhone := jsOrStr (normalizePhoneNumber (some phoneNumber)) phoneNumber
  let normalizedPatientPhone := normalizePhoneNumber (some input.patientPhone)
  let input1 :=
    if optTruthy normalizedPatientPhone then
      { input with patientPhone := jsOrStr normalizedPatientPhone input.patientPhone }
    else input
  let (user, users1) := findOrCreate users freshUserId normalizedPhone (some input1.patientName)
  match validateAppointmentTime cfg now input1.appointmentDate input1.appointmentTime with
  | .error e => .error e
  | .ok _ =>
    match checkConflicts cfg db input1.appointmentDate input1.appointmentTime none with
    | .error e => .error e
    | .ok _ =>
      let (appointment, db1) := repoCreate cfg now db freshApptId input1 user.id
      let users2 := incrementAppointmentCount users1 user.id
      .ok (appointment, users2, db1)

/-- `AppointmentRepository.update`: assemble `updateData` (always a fresh
`updated_at`; recomputed UTC interval when date or time changed, keeping the
stored duration; `reason`/`status`/`notes` only when supplied) and apply it to
the matching row. -/
def repoUpdate (cfg : Config) (now : Int) (db : List Appointment)
    (appointmentId : Nat) (updates : UpdateAppointmentInput) :
    Except ServiceError (Appointment × List Appointment) :=
  let dateOrTimeChanged := updates.appointmentDate.isSome || optTruthy updates.appointmentTime
  match (if dateOrTimeChanged then
           (repoFindById db appointmentId).map some
         else .ok none) with
  | .error e => .error e
  | .ok exOpt =>
    let applyRow := fun (a : Appointment) =>
      let a1 := { a with updated_at := now }
      let a2 :=
        match exOpt with
        | some ex =>
          let newDate := (updates.appointmentDate).getD ex.appointment_date
          let newTime := jsOrStr updates.appointmentTime ex.appointment_time
          let startTimeUtc := localToUtc cfg newDate newTime
          let endTimeUtc := calculateEndTime startTimeUtc ex.duration_minutes
          { a1 with appointment_date := newDate, appointment_time := newTime,
                    start_time_utc := startTimeUtc, end_time_utc := endTimeUtc }
        | none => a1
      let a3 := match updates.reason with
        | some r => { a2 with reason := some r }
        | none => a2
      let a4 := match updates.status with
        | some s => { a3 with status := s }
        | none => a3
      match updates.notes with
      | some n => { a4 with notes := some n }
      | none => a4
    let db2 := db.map (fun a => if a.id = appointmentId then applyRow a else a)
    match db2.find? (fun a => a.id = appointmentId) with
    | some a2 => .ok (a2, db2)
    | none => .error (.database "Failed to update appointment")

/-- `AppointmentService.updateAppointment`: existence, transition validation,
then time/conflict validation only when the civil date or time changes
(excluding this appointment from the conflict search), then persist. -/
def updateAppointment (cfg : Config) (now : Int) (db : List Appointment)
    (appointmentId : Nat) (updates : UpdateAppointmentInput) :
    Except ServiceError (Appointment × List Appointment) :=
  match repoFindById db appointmentId with
  | .error e => .error e
  | .ok existingAppointment =>
    match validateStatusTransition existingAppointment.status updates.status with
    | .error e => .error e
    | .ok _ =>
      let dateOrTimeChanged :=
        updates.appointmentDate.isSome || optTruthy updates.appointmentTime
      match (if dateOrTimeChanged then
               let newDate := (updates.appointmentDate).getD existingAppointment.appointment_date
               let newTime := jsOrStr updates.appointmentTime existingAppointment.appointment_time
               match validateAppointmentTime cfg now newDate newTime with
               | .error e => .error e
               | .ok _ => checkConflicts cfg db newDate newTime (some appointmentId)
             else (.ok () : Except ServiceError Unit)) with
      | .error e => .error e
      | .ok _ => repoUpdate cfg now db appointmentId updates

/-- The row mutation of `AppointmentRepository.cancel`: status `cancelled`,
fresh `updated_at`, and `notes := reason` only when the reason is truthy. -/
def applyCancel (now : Int) (reason : Option String) (a : Appointment) : Appointment :=
  let a1 := { a with status := .cancelled, updated_at := now }
  if optTruthy reason then { a1 with notes := reason } else a1

/-- `AppointmentRepository.cancel`: apply the cancellation mutation to the
matching row and return the updated row. -/
def repoCancel (now : Int) (db : List Appointment) (appointmentId : Nat)
    (reason : Option String) : Except ServiceError (Appointment × List Appointment) :=
  let db2 := db.map (fun a => if a.id = appointmentId then applyCancel now reason a else a)
  match db2.find? (fun a => a.id = appointmentId) with
  | some a2 => .ok (a2, db2)
  | none => .error (.database "Failed to cancel appointment")

/-- `AppointmentService.cancelAppointment`: existence, terminal-state guards,
then the repository cancellation. -/
def cancelAppointment (now : Int) (db : List Appointment) (appointmentId : Nat)
    (reason : Option String) : Except ServiceError (Appointment × List Appointment) :=
  match repoFindById db appointmentId with
  | .error e => .error e
  | .ok existingAppointment =>
    if existingAppointment.status = .cancelled then
      .error (.businessRule "Appointment is already cancelled")
    else if existingAppointment.status = .completed then
      .error (.businessRule "Cannot cancel completed appointment")
    else
      repoCancel now db appointmentId reason

/-- JavaScript `n.toString().padStart(2, '0')` for the non-negative minute
components produced by the slot loop. -/
def pad2 (n : Int) : String :=
  let s := toString n
  if s.length < 2 then "0" ++ s else s

/-- The `HH:mm` string built by the slot loop from a minute-of-day count. -/
def minutesToTimeStr (m : Int) : String :=
  pad2 (m / 60) ++ ":" ++ pad2 (m % 60)

/-- The `AppointmentRepository.list` call issued by `getAvailableSlots`:
`dateFrom = dateTo = d`, status in `[scheduled, confirmed]`, default limit 20
(sorting by `appointment_date` is the identity here since every retained row
carries the same date). -/
def repoListForSlots (db : List Appointment) (d : Int) : List Appointment :=
  (db.filter (fun a =>
    (decide (a.status = .scheduled) || decide (a.status = .confirmed)) &&
    decide (a.appointment_date ≥ d) && decide (a.appointment_date ≤ d))).take 20

/-- The `while (currentMinutes + durationMinutes <= endMinutes)` loop of
`AppointmentService.getAvailableSlots`: emit the candidate unless it conflicts
(with the configured buffer) with a listed appointment or lies in the past,
then advance by the 15-minute granularity. -/
def slotLoop (cfg : Config) (now : Int) (d : Int) (durationMinutes : Int)
    (appointments : List Appointment) (currentMinutes endMinutes : Int) : List String :=
  if h : currentMinutes + durationMinutes ≤ endMinutes then
    let hour := currentMinutes / 60
    let minOfHour := currentMinutes % 60
    let timeStr := pad2 hour ++ ":" ++ pad2 minOfHour
    let slotStart := localToUtc cfg d timeStr
    let slotEnd := calculateEndTime slotStart durationMinutes
    let hasConflict := appointments.any (fun apt =>
      hasTimeConflict slotStart slotEnd apt.start_time_utc apt.end_time_utc
        cfg.APPOINTMENT_BUFFER_MINUTES)
    let rest := slotLoop cfg now d durationMinutes appointments (currentMinutes + 15) endMinutes
    if !hasConflict && !(isPastDateTime cfg now d timeStr) then timeStr :: rest else rest
  else
    []
termination_by (endMinutes - durationMinutes - currentMinutes + 15).toNat
decreasing_by omega

/-- `AppointmentService.getAvailableSlots`: reject past dates, list the
booked (`scheduled`/`confirmed`) appointments of the day, and run the
candidate loop over the configured business-hours window. -/
def getAvailableSlots (cfg : Config) (now : Int) (db : List Appointment) (d : Int)
    (durationMinutes : Int) : Except ServiceError (List String) :=
  if isPastDateTime cfg now d "00:00" then
    .error (.validation "Cannot get slots for past dates")
  else
    let appointments := repoListForSlots db d
    .ok (slotLoop cfg now d durationMinutes appointments
          (businessHoursStart cfg) (businessHoursEnd cfg))

/-- The JSON bodies of the tool-callback endpoints, restricted to the fields
the error-propagation claims mention (`status` is the HTTP status). -/
structure Response where
  status : Nat
  success : Option Bool
  message : Option String
  error : Option String
  action : Option String
deriving DecidableEq, Repr

/-- `webhook.controller.ts` `createAppointment`: the response computed from the
service outcome (the `catch` branch answers 200 / `success:false` /
`error:"booking_failed"` with the thrown error's message). -/
def createAppointmentRespond (result : Except ServiceError Appointment)
    (preferred_date : Int) (preferred_time : String) : Response :=
  match result with
  | .ok _ =>
    { status := 200, success := some true,
      message := some s!"Appointment confirmed for {preferred_date} at {preferred_time}",
      error := none, action := none }
  | .error e =>
    { status := 200, success := some false,
      message := some (serviceErrorMessage e),
      error := some "booking_failed", action := none }

/-- `webhook.controller.ts` `checkAppointment` response. -/
def checkAppointmentRespond (result : Except ServiceError (List Appointment)) : Response :=
  match result with
  | .ok [] =>
    { status := 200, success := some true,
      message := some "No upcoming appointments found.", error := none, action := none }
  | .ok appointments =>
    { status := 200, success := some true,
      message := some s!"Found {appointments.length} upcoming appointment(s).",
      error := none, action := none }
  | .error _ =>
    { status := 200, success := some false,
      message := some "Unable to look up appointments at this time.",
      error := some "lookup_failed", action := none }

/-- `webhook.controller.ts` `editAppointment` response; `ok none` is the
no-appointment-on-that-date early return, not a thrown error. -/
def editAppointmentRespond (result : Except ServiceError (Option Appointment))
    (original_date : Int) (shown_date : Int) (shown_time : String) : Response :=
  match result with
  | .ok (some _) =>
    { status := 200, success := some true,
      message := some s!"Appointment updated to {shown_date} at {shown_time}.",
      error := none, action := none }
  | .ok none =>
    { status := 200, success := some false,
      message := some s!"No appointment found on {original_date}.",
      error := some "appointment_not_found", action := none }
  | .error e =>
    { status := 200, success := some false,
      message := some (serviceErrorMessage e),
      error := some "update_failed", action := none }

/-- `webhook.controller.ts` `cancelAppointment` response. -/
def cancelAppointmentRespond (result : Except ServiceError (Option Appointment))
    (appointment_date : Int) : Response :=
  match result with
  | .ok (some _) =>
    { status := 200, success := some true,
      message := some s!"Your appointment on {appointment_date} has been cancelled.",
      error := none, action := none }
  | .ok none =>
    { status := 200, success := some false,
      message := some s!"No appointment found on {appointment_date}.",
      error := some "appointment_not_found", action := none }
  | .error _ =>
    { status := 200, success := some false,
      message := some "Failed to cancel appointment.",
      error := some "cancel_failed", action := none }

/-- `webhook.controller.ts` `transferCall` response. -/
def transferCallRespond (result : Except ServiceError Unit) : Response :=
  match result with
  | .ok _ =>
    { status := 200, success := some true,
      message := some "Transferring call to front desk staff.",
      error := none, action := some "transfer" }
  | .error _ =>
    { status := 200, success := some false,
      message := some "Unable to transfer at this time. Please call back.",
      error := some "transfer_failed", action := none }

/-- `webhook.controller.ts` `endCall` response: its `catch` branch answers
HTTP 200 with `success:true`, message `"Call ended."`, action `"hangup"`, and
no `error` field. -/
def endCallRespond (result : Except ServiceError Unit) : Response :=
  match result with
  | .ok _ =>
    { status := 200, success := some true,
      message := some "Call ended successfully.", error := none, action := some "hangup" }
  | .error _ =>
    { status := 200, success := some true,
      message := some "Call ended.", error := none, action := some "hangup" }

/-- `Except.isOk` written out, so acceptance is a evaluable predicate. -/
def exceptIsOk {ε α : Type} : Except ε α → Bool
  | .ok _ => true
  | .error _ => false

/-- The buffered window start used by `checkConflicts`:
requested start minus the configured buffer. -/
def bufferedWindowStart (cfg : Config) (d : Int) (t : String) : Int :=
  localToUtc cfg d t - cfg.APPOINTMENT_BUFFER_MINUTES

/-- The buffered window end used by `checkConflicts`: requested start plus the
configured default duration plus the buffer. -/
def bufferedWindowEnd (cfg : Config) (d : Int) (t : String) : Int :=
  localToUtc cfg d t + cfg.APPOINTMENT_DURATION_MINUTES + cfg.APPOINTMENT_BUFFER_MINUTES

/-- The allowed (from, to) status pairs exactly as the specification's
transition table lists them. -/
def specAllowedPairs : List (AppointmentStatus × AppointmentStatus) :=
  [(.scheduled, .confirmed), (.scheduled, .cancelled), (.scheduled, .rescheduled),
   (.confirmed, .completed), (.confirmed, .cancelled), (.confirmed, .no_show),
   (.confirmed, .rescheduled),
   (.no_show, .rescheduled),
   (.rescheduled, .scheduled)]

/-- Number of loop iterations of the slot loop started at `startMinutes`. -/
def numCandidates (startMinutes endMinutes durationMinutes : Int) : Nat :=
  if startMinutes + durationMinutes ≤ endMinutes then
    ((endMinutes - durationMinutes - startMinutes) / 15).toNat + 1
  else 0

/-- `n` ascending values in steps of 15 starting at `cur`. -/
def candListFrom (cur : Int) : Nat → List Int
  | 0 => []
  | n + 1 => cur :: candListFrom (cur + 15) n

/-- The 15-minute-step candidate start minutes of the specification: every
`startMinutes + 15 * k` whose slot still fits before `endMinutes`. -/
def candidateMinutes (startMinutes endMinutes durationMinutes : Int) : List Int :=
  candListFrom startMinutes (numCandidates startMinutes endMinutes durationMinutes)

/-- The survival test a candidate minute must pass in `getAvailableSlots`:
no buffered conflict with a listed appointment, and not in the past. -/
def slotKeep (cfg : Config) (now : Int) (d : Int) (durationMinutes : Int)
    (appointments : List Appointment) (m : Int) : Bool :=
  let timeStr := minutesToTimeStr m
  let slotStart := localToUtc cfg d timeStr
  let slotEnd := calculateEndTime slotStart durationMinutes
  !(appointments.any fun apt =>
      hasTimeConflict slotStart slotEnd apt.start_time_utc apt.end_time_utc
        cfg.APPOINTMENT_BUFFER_MINUTES) &&
    !(isPastDateTime cfg now d timeStr)

/-- Baseline configuration used by the concrete scenarios: hours 09:00-17:00
on weekdays, 30-minute default duration, 15-minute buffer, and a zero
timezone offset (the scenarios are offset-invariant). -/
def cfgFix : Config :=
  { BUSINESS_TIMEZONE := "America/New_York"
    BUSINESS_HOURS_START := "09:00"
    BUSINESS_HOURS_END := "17:00"
    BUSINESS_DAYS := [1, 2, 3, 4, 5]
    APPOINTMENT_DURATION_MINUTES := 30
    APPOINTMENT_BUFFER_MINUTES := 15
    tzOffsetMinutes := 0 }

/-- The slot-generation configuration of the specification's concrete
scenario: hours 09:00-10:00. -/
def cfgShortDay : Config :=
  { cfgFix with BUSINESS_HOURS_START := "09:00", BUSINESS_HOURS_END := "10:00" }

/-- A stored appointment on day 1 from 14:00 to 14:30 (UTC minutes 2280-2310)
with the given status. -/
def apptFixture (s : AppointmentStatus) : Appointment :=
  { id := 1
    user_id := 1
    patient_name := "Jane Doe"
    patient_phone := "+18185551234"
    appointment_date := 1
    appointment_time := "14:00"
    start_time_utc := 2280
    end_time_utc := 2310
    duration_minutes := 30
    reason := none
    status := s
    call_sid := none
    session_id := none
    notes := none
    created_at := 0
    updated_at := 0 }

/-- A booking request for day 1 at the given time. -/
def inputAt (t : String) : CreateAppointmentInput :=
  { patientName := "Jane Doe"
    patientPhone := "+18185551234"
    appointmentDate := 1
    appointmentTime := t
    reason := some "Checkup"
    callSid := none
    sessionId := none
    durationMinutes := none }

/-- A booking request whose patient phone does not canonicalize. -/
def inputBadPhone : CreateAppointmentInput :=
  { inputAt "10:00" with patientPhone := "123" }

/-- An update carrying no field at all. -/
def noUpdates : UpdateAppointmentInput :=
  { appointmentDate := none, appointmentTime := none, reason := none,
    status := none, notes := none }

/-- A scheduled appointment with pre-existing notes. -/
def apptWithNotes : Appointment :=
  { apptFixture .scheduled with notes := some "keep" }

/-- A stored scheduled appointment on day 1 from 16:00 to 16:30 with id
`10 + i`, far away from the morning slots. -/
def lateAppt (i : Nat) : Appointment :=
  { apptFixture .scheduled with
    id := 10 + i
    appointment_time := "16:00"
    start_time_utc := 2400
    end_time_utc := 2430 }

/-- A stored scheduled appointment on day 1 from 09:00 to 09:30, id 99. -/
def morningAppt : Appointment :=
  { apptFixture .scheduled with
    id := 99
    appointment_time := "09:00"
    start_time_utc := 1980
    end_time_utc := 2010 }

/-- Twenty-one scheduled appointments on day 1: twenty late-afternoon rows
followed by one 09:00 row, exceeding the repository's default query limit. -/
def db21 : List Appointment :=
  (List.range 20).map lateAppt ++ [morningAppt]

/-- C5 counterexample: with the existing interval `[0, 30]` and a 15-minute
buffer, a new interval starting exactly at `existingEnd + buffer = 45` IS
reported as a conflict by `hasTimeConflict` (date-fns `isWithinInterval` is
inclusive), so the claimed strict-inequality characterization fails there. -/
theorem hasTimeConflict_strict_boundary_cex :
    ¬(hasTimeConflict 45 75 0 30 15 = true ↔ ((45 : Int) < 30 + 15 ∧ (75 : Int) > 0 - 15)) := by
  decide

/-- C5 (amended): for proper intervals and a non-negative buffer,
`hasTimeConflict` holds iff `newStart ≤ existingEnd + buffer` and
`existingStart - buffer ≤ newEnd` — the inclusive-boundary overlap test, so
exact boundary contact is a conflict. -/
theorem hasTimeConflict_inclusive_overlap_iff
    (newStart newEnd existingStart existingEnd bufferMinutes : Int)
    (hnew : newStart < newEnd) (hex : existingStart < existingEnd)
    (hbuf : 0 ≤ bufferMinutes) :
    hasTimeConflict newStart newEnd existingStart existingEnd bufferMinutes = true ↔
      (newStart ≤ existingEnd + bufferMinutes ∧ existingStart - bufferMinutes ≤ newEnd) := by
  simp only [hasTimeConflict, isWithinInterval, isBefore, isAfter, addMinutes,
    Bool.or_eq_true, Bool.and_eq_true, decide_eq_true_eq, gt_iff_lt]
  omega

/-- Instantiation of the buffered-overlap characterization at a concrete
conflicting pair. -/
theorem hasTimeConflict_inclusive_overlap_iff_witness :
    hasTimeConflict 0 30 40 70 15 = true ↔ ((0 : Int) ≤ 70 + 15 ∧ (40 : Int) - 15 ≤ 30) :=
  hasTimeConflict_inclusive_overlap_iff 0 30 40 70 15 (by decide) (by decide) (by decide)

/-- C4 counterexample: an error thrown inside the end-call handler is answered
with `success: true` and no `error` code, not the claimed
`success: false` body. -/
theorem endCall_error_success_true_cex :
    (endCallRespond (.error (.database "Failed to update call log"))).success = some true ∧
    (endCallRespond (.error (.database "Failed to update call log"))).error = none ∧
    (endCallRespond (.error (.database "Failed to update call log"))).status = 200 :=
  ⟨rfl, rfl, rfl⟩

/-- C4 (amended): every error raised in the create, check, edit, cancel and
transfer tool-callback handlers yields HTTP 200 with a
`success:false / message / error:<short code>` body, while an error in the
end-call handler yields HTTP 200 with `success:true`, message
`"Call ended."`, action `"hangup"`, and no error code. -/
theorem toolCallback_error_response_shapes (e : ServiceError) (d1 : Int) (t1 : String)
    (od sd : Int) (st : String) (cd : Int) :
    createAppointmentRespond (.error e) d1 t1 =
      { status := 200, success := some false, message := some (serviceErrorMessage e),
        error := some "booking_failed", action := none } ∧
    checkAppointmentRespond (.error e) =
      { status := 200, success := some false,
        message := some "Unable to look up appointments at this time.",
        error := some "lookup_failed", action := none } ∧
    editAppointmentRespond (.error e) od sd st =
      { status := 200, success := some false, message := some (serviceErrorMessage e),
        error := some "update_failed", action := none } ∧
    cancelAppointmentRespond (.error e) cd =
      { status := 200, success := some false,
        message := some "Failed to cancel appointment.",
        error := some "cancel_failed", action := none } ∧
    transferCallRespond (.error e) =
      { status := 200, success := some false,
        message := some "Unable to transfer at this time. Please call back.",
        error := some "transfer_failed", action := none } ∧
    endCallRespond (.error e) =
      { status := 200, success := some true, message := some "Call ended.",
        error := none, action := some "hangup" } :=
  ⟨rfl, rfl, rfl, rfl, rfl, rfl⟩

/-- A string with a non-empty left append component is non-empty. -/
theorem append_ne_empty_left {a : String} (b : String) (ha : a.length ≠ 0) :
    a ++ b ≠ "" := by
  intro h
  have hlen := congrArg String.length h
  rw [String.length_append] at hlen
  rw [show ("" : String).length = 0 from rfl] at hlen
  omega

/-- A successfully normalized phone number is never the empty string (every
branch prepends a dialing prefix to at least ten digits). -/
theorem normalizePhoneNumber_default_ne_empty {p c : String}
    (h : normalizePhoneNumber (some p) = some c) : c ≠ "" := by
  unfold normalizePhoneNumber at h
  split at h
  · exact absurd h (by simp)
  · dsimp only at h
    split_ifs at h
    all_goals cases h
    all_goals exact append_ne_empty_left _ (by decide)

/-- C6: `matchPhoneNumbers` holds exactly when both numbers canonicalize and
the canonical forms are equal as strings; in particular two numbers whose
canonical forms differ are never matched. -/
theorem matchPhoneNumbers_canonical_iff (phone1 phone2 : String) :
    matchPhoneNumbers phone1 phone2 = true ↔
      ∃ c, normalizePhoneNumber (some phone1) = some c ∧
        normalizePhoneNumber (some phone2) = some c := by
  unfold matchPhoneNumbers
  rcases h1 : normalizePhoneNumber (some phone1) with _ | a
  · simp [h1, optTruthy]
  · rcases h2 : normalizePhoneNumber (some phone2) with _ | b
    · simp [h1, h2, optTruthy]
    · have ha := normalizePhoneNumber_default_ne_empty h1
      have hb := normalizePhoneNumber_default_ne_empty h2
      simp [h1, h2, optTruthy, ha, hb]
      constructor
      · intro hab
        exact hab.symm
      · intro hab
        exact hab.symm

/-- C3: a status update passes transition validation exactly for the pairs of
the specification's table; every other pair makes `validateStatusTransition`
(and hence `updateAppointment` carrying only a status change) raise
`BusinessRuleError` with a message naming both states, and every pair in the
table lets the update succeed. -/
theorem validateStatusTransition_table :
    ∀ f t : AppointmentStatus,
      (validateStatusTransition f (some t) = .ok () ↔ (f, t) ∈ specAllowedPairs) ∧
      ((f, t) ∉ specAllowedPairs →
        (validateStatusTransition f (some t) =
          .error (.businessRule (invalidTransitionMsg f t)) ∧
        (statusStr f).toList <:+: (invalidTransitionMsg f t).toList ∧
        (statusStr t).toList <:+: (invalidTransitionMsg f t).toList)) ∧
      ((f, t) ∈ specAllowedPairs →
        exceptIsOk (updateAppointment cfgFix 0 [apptFixture f] 1
          { noUpdates with status := some t }) = true) ∧
      ((f, t) ∉ specAllowedPairs →
        updateAppointment cfgFix 0 [apptFixture f] 1 { noUpdates with status := some t } =
          .error (.businessRule (invalidTransitionMsg f t))) := by
  intro f t
  cases f <;> cases t <;> decide

/-- Instantiation of the transition table at one forbidden pair (out of the
terminal state `cancelled`) and one allowed pair. -/
theorem validateStatusTransition_table_witness :
    validateStatusTransition .cancelled (some .scheduled) =
      .error (.businessRule (invalidTransitionMsg .cancelled .scheduled)) ∧
    exceptIsOk (updateAppointment cfgFix 0 [apptFixture .scheduled] 1
      { noUpdates with status := some .confirmed }) = true :=
  ⟨((validateStatusTransition_table .cancelled .scheduled).2.1 (by decide)).1,
   (validateStatusTransition_table .scheduled .confirmed).2.2.1 (by decide)⟩

/-- `applyCancel` never touches the row id. -/
theorem applyCancel_id (now : Int) (reason : Option String) (a : Appointment) :
    (applyCancel now reason a).id = a.id := by
  unfold applyCancel
  split <;> rfl

/-- Updating the rows matching an id with an id-preserving mutation commutes
with looking the id up. -/
theorem find?_map_update (db : List Appointment) (i : Nat) (f : Appointment → Appointment)
    (hf : ∀ a, (f a).id = a.id) :
    (db.map (fun a => if a.id = i then f a else a)).find? (fun a => a.id = i) =
      (db.find? (fun a => a.id = i)).map f := by
  induction db with
  | nil => rfl
  | cons head tail ih =>
    by_cases h : head.id = i
    · simp [List.find?_cons, h, hf]
    · simp [List.find?_cons, h, hf, ih]

/-- C10: a successful cancellation returns the stored record with only the
status (now `cancelled`), the `updated_at` timestamp and — only under a
non-empty reason — the notes changed; every other field is copied unchanged,
and without a truthy reason the notes are copied unchanged too. -/
theorem cancelAppointment_frame :
    ∀ (now : Int) (db : List Appointment) (i : Nat) (reason : Option String)
      (a a2 : Appointment) (db2 : List Appointment),
      db.find? (fun x => x.id = i) = some a →
      cancelAppointment now db i reason = .ok (a2, db2) →
      a2 = { a with
             status := .cancelled
             updated_at := now
             notes := if optTruthy reason = true then reason else a.notes } := by
  intro now db i reason a a2 db2 hfind hok
  unfold cancelAppointment repoFindById at hok
  rw [hfind] at hok
  dsimp only at hok
  split_ifs at hok with hc1 hc2
  unfold repoCancel at hok
  dsimp only at hok
  rw [find?_map_update db i (applyCancel now reason) (applyCancel_id now reason)] at hok
  rw [hfind] at hok
  dsimp only [Option.map] at hok
  injection hok with hok
  have ha2 : a2 = applyCancel now reason a := (congrArg Prod.fst hok).symm
  subst ha2
  cases hr : optTruthy reason <;> simp [applyCancel, hr]

/-- Instantiation of the cancellation frame property: cancelling the
noted appointment without a reason only flips status and timestamp. -/
theorem cancelAppointment_frame_witness :
    applyCancel 99 none apptWithNotes =
      { apptWithNotes with
        status := .cancelled
        updated_at := 99
        notes := if optTruthy (none : Option String) = true then none
                 else apptWithNotes.notes } :=
  cancelAppointment_frame 99 [apptWithNotes] 1 none apptWithNotes _ _ rfl rfl

/-- C9 counterexample: cancelling with a supplied empty reason does not store
that reason into notes — the pre-existing notes value is kept (reason is
falsy, so the repository skips the notes column). -/
theorem cancelAppointment_emptyReason_cex :
    (cancelAppointment 99 [apptWithNotes] 1 (some "")).map (fun r => r.1.notes) =
      .ok (some "keep") ∧ (some "keep" : Option String) ≠ some "" := by
  decide

/-- C9 (amended): cancellation raises `NotFoundError` for an unknown id,
raises `BusinessRuleError` exactly when the stored status is `cancelled` or
`completed`, and otherwise succeeds with status set to `cancelled`, storing a
supplied reason into notes when that reason is non-empty. -/
theorem cancelAppointment_spec :
    ∀ (now : Int) (db : List Appointment) (i : Nat) (reason : Option String),
      (db.find? (fun x => x.id = i) = none →
        cancelAppointment now db i reason = .error (.notFound "Appointment" (toString i))) ∧
      (∀ a, db.find? (fun x => x.id = i) = some a →
        ((a.status = .cancelled ∨ a.status = .completed) ↔
          (∃ m, cancelAppointment now db i reason = .error (.businessRule m))) ∧
        (a.status ≠ .cancelled → a.status ≠ .completed →
          cancelAppointment now db i reason =
            .ok (applyCancel now reason a,
                 db.map (fun x => if x.id = i then applyCancel now reason x else x)) ∧
          (applyCancel now reason a).status = .cancelled ∧
          (optTruthy reason = true → (applyCancel now reason a).notes = reason))) := by
  intro now db i reason
  constructor
  · intro hnone
    unfold cancelAppointment repoFindById
    rw [hnone]
  · intro a hfind
    have hok : ∀ (h1 : a.status ≠ .cancelled) (h2 : a.status ≠ .completed),
        cancelAppointment now db i reason =
          .ok (applyCancel now reason a,
               db.map (fun x => if x.id = i then applyCancel now reason x else x)) := by
      intro h1 h2
      unfold cancelAppointment repoFindById repoCancel
      rw [hfind]
      dsimp only
      rw [if_neg h1, if_neg h2]
      rw [find?_map_update db i (applyCancel now reason) (applyCancel_id now reason)]
      rw [hfind]
      rw [Option.map_some']
    constructor
    · constructor
      · intro hterm
        unfold cancelAppointment repoFindById
        rw [hfind]
        dsimp only
        rcases hterm with h | h
        · rw [if_pos h]
          exact ⟨"Appointment is already cancelled", rfl⟩
        · by_cases hc : a.status = .cancelled
          · rw [if_pos hc]
            exact ⟨"Appointment is already cancelled", rfl⟩
          · rw [if_neg hc, if_pos h]
            exact ⟨"Cannot cancel completed appointment", rfl⟩
      · rintro ⟨m, hm⟩
        by_contra hterm
        push_neg at hterm
        rw [hok hterm.1 hterm.2] at hm
        cases hm
    · intro h1 h2
      refine ⟨hok h1 h2, ?_, ?_⟩
      · unfold applyCancel
        split <;> rfl
      · intro hr
        unfold applyCancel
        rw [if_pos hr]

/-- Instantiation of the cancellation error contract: a second cancellation
raises `BusinessRuleError`, and cancelling a live appointment succeeds and
stores the non-empty reason. -/
theorem cancelAppointment_spec_witness :
    (∃ m, cancelAppointment 99 [apptFixture .cancelled] 1 none =
      .error (.businessRule m)) ∧
    (applyCancel 99 (some "patient request") apptWithNotes).notes = some "patient request" :=
  ⟨(((cancelAppointment_spec 99 [apptFixture .cancelled] 1 none).2
      (apptFixture .cancelled) rfl).1).mp (Or.inl rfl),
   (((cancelAppointment_spec 99 [apptWithNotes] 1 (some "patient request")).2
      apptWithNotes rfl).2 (by decide) (by decide)).2.2 rfl⟩

/-- C1 counterexample: with the sole 14:00-14:30 appointment in the
non-cancelled status `completed`, the 14:35 request is NOT rejected (the
conflict query only matches `scheduled` and `confirmed` rows), so booking
succeeds where the claim demands a `ConflictError`. -/
theorem createAppointment_completed_overlap_cex :
    (apptFixture .completed).status ≠ .cancelled ∧
    exceptIsOk (createAppointment cfgFix 0 [] [apptFixture .completed] 2 7
      (inputAt "14:35") "+18185551234") = true := by
  decide

/-- C1 (amended): with the sole 14:00-14:30 appointment in status `scheduled`
or `confirmed` and a 15-minute buffer, the 14:35-15:05 request is rejected
with a `ConflictError` carrying the existing appointment's id, while the
14:46-15:16 request succeeds. -/
theorem createAppointment_buffer_scenario :
    ∀ s : AppointmentStatus, s = .scheduled ∨ s = .confirmed →
      (∃ m, createAppointment cfgFix 0 [] [apptFixture s] 2 7 (inputAt "14:35")
        "+18185551234" = .error (.conflict m [1])) ∧
      exceptIsOk (createAppointment cfgFix 0 [] [apptFixture s] 2 7
        (inputAt "14:46") "+18185551234") = true := by
  intro s hs
  rcases hs with rfl | rfl
  · exact ⟨⟨_, rfl⟩, rfl⟩
  · exact ⟨⟨_, rfl⟩, rfl⟩

/-- Instantiation of the buffered double-booking scenario at a scheduled
existing appointment. -/
theorem createAppointment_buffer_scenario_witness :
    (∃ m, createAppointment cfgFix 0 [] [apptFixture .scheduled] 2 7 (inputAt "14:35")
      "+18185551234" = .error (.conflict m [1])) ∧
    exceptIsOk (createAppointment cfgFix 0 [] [apptFixture .scheduled] 2 7
      (inputAt "14:46") "+18185551234") = true :=
  createAppointment_buffer_scenario .scheduled (Or.inl rfl)

/-- C2 counterexample: a stored `no_show` appointment (one of the claimed
non-cancelled statuses) occupying exactly the requested interval does not
block the write — `createAppointment` succeeds. -/
theorem createAppointment_no_show_overlap_cex :
    (apptFixture .no_show).status = .no_show ∧
    (apptFixture .no_show).start_time_utc ≤ bufferedWindowEnd cfgFix 1 "14:00" ∧
    bufferedWindowStart cfgFix 1 "14:00" ≤ (apptFixture .no_show).end_time_utc ∧
    exceptIsOk (createAppointment cfgFix 0 [] [apptFixture .no_show] 2 7
      (inputAt "14:00") "+18185551234") = true := by
  decide

/-- Membership in the repository's conflict query: a stored row is returned
iff its status is `scheduled` or `confirmed`, its interval meets the queried
window inclusively, and it is not the excluded id. -/
theorem mem_findConflicts {db : List Appointment} {s e : Int} {excl : Option Nat}
    {a : Appointment} :
    a ∈ findConflicts db s e excl ↔
      a ∈ db ∧ (a.status = .scheduled ∨ a.status = .confirmed) ∧
      a.start_time_utc ≤ e ∧ s ≤ a.end_time_utc ∧
      (∀ j, excl = some j → a.id ≠ j) := by
  unfold findConflicts
  rw [List.mem_filter]
  rcases excl with _ | j <;>
    simp [Bool.and_eq_true, Bool.or_eq_true, decide_eq_true_eq, and_assoc, ge_iff_le]

/-- C2 (amended): the conflict check rejects exactly when some stored
appointment with status `scheduled` or `confirmed` (other non-cancelled
statuses — `completed`, `no_show`, `rescheduled` — are not considered)
overlaps the buffered window inclusively and is not the excluded id; any
rejection is a `ConflictError` carrying exactly those appointments' ids. -/
theorem checkConflicts_spec :
    ∀ (cfg : Config) (db : List Appointment) (d : Int) (t : String) (excl : Option Nat),
      (checkConflicts cfg db d t excl = .ok () ↔
        ∀ a ∈ db, ¬((a.status = .scheduled ∨ a.status = .confirmed) ∧
          a.start_time_utc ≤ bufferedWindowEnd cfg d t ∧
          bufferedWindowStart cfg d t ≤ a.end_time_utc ∧
          (∀ j, excl = some j → a.id ≠ j))) ∧
      (checkConflicts cfg db d t excl ≠ .ok () →
        ∃ m, checkConflicts cfg db d t excl =
          .error (.conflict m
            ((findConflicts db (bufferedWindowStart cfg d t) (bufferedWindowEnd cfg d t)
              excl).map (fun a => a.id)))) := by
  intro cfg db d t excl
  have hbs : addMinutes (localToUtc cfg d t) (-cfg.APPOINTMENT_BUFFER_MINUTES) =
      bufferedWindowStart cfg d t := by
    simp only [addMinutes, bufferedWindowStart]
    omega
  have hbe : addMinutes (calculateEndTime (localToUtc cfg d t)
      cfg.APPOINTMENT_DURATION_MINUTES) cfg.APPOINTMENT_BUFFER_MINUTES =
      bufferedWindowEnd cfg d t := by
    simp only [addMinutes, calculateEndTime, bufferedWindowEnd]
  unfold checkConflicts
  dsimp only
  rw [hbs, hbe]
  constructor
  · split_ifs with hlen
    · constructor
      · intro h
        cases h
      · intro hall
        exfalso
        rcases List.exists_mem_of_length_pos hlen with ⟨a, ha⟩
        rcases mem_findConflicts.mp ha with ⟨hmem, hrest⟩
        exact hall a hmem hrest
    · constructor
      · intro _ a hmem hbad
        exact hlen (List.length_pos_of_mem (mem_findConflicts.mpr ⟨hmem, hbad⟩))
      · intro _
        rfl
  · split_ifs with hlen
    · intro _
      exact ⟨_, rfl⟩
    · intro hne
      exact absurd rfl hne

/-- Instantiation of the conflict-check characterization: the buffered window
of a 14:35 request rejects against the scheduled 14:00-14:30 appointment. -/
theorem checkConflicts_spec_witness :
    ∃ m, checkConflicts cfgFix [apptFixture .scheduled] 1 "14:35" none =
      .error (.conflict m ((findConflicts [apptFixture .scheduled]
        (bufferedWindowStart cfgFix 1 "14:35") (bufferedWindowEnd cfgFix 1 "14:35")
        none).map (fun a => a.id))) :=
  (checkConflicts_spec cfgFix [apptFixture .scheduled] 1 "14:35" none).2 (by decide)

/-- C8 counterexample: a patient phone that fails canonicalization is
persisted verbatim, not replaced by the caller's canonical phone. -/
theorem createAppointment_rawPhone_cex :
    normalizePhoneNumber (some "123") = none ∧
    jsOrStr (normalizePhoneNumber (some "+18185551234")) "+18185551234" = "+18185551234" ∧
    (createAppointment cfgFix 0 [] [] 2 7 inputBadPhone "+18185551234").map
      (fun r => r.1.patient_phone) = .ok "123" ∧ "123" ≠ "+18185551234" := by
  decide

/-- C8 (amended): whenever the patient phone fails to canonicalize and the
booking succeeds, the created appointment carries the raw `patientPhone`
string unchanged (there is no caller-phone fallback in the service). -/
theorem createAppointment_rawPatientPhone :
    ∀ (cfg : Config) (now : Int) (users : List User) (db : List Appointment)
      (fu fa : Nat) (input : CreateAppointmentInput) (phone : String)
      (a : Appointment) (us2 : List User) (db2 : List Appointment),
      normalizePhoneNumber (some input.patientPhone) = none →
      createAppointment cfg now users db fu fa input phone = .ok (a, us2, db2) →
      a.patient_phone = input.patientPhone := by
  intro cfg now users db fu fa input phone a us2 db2 hnorm hok
  unfold createAppointment at hok
  rw [hnorm] at hok
  dsimp only [optTruthy] at hok
  rw [if_neg (by simp)] at hok
  rcases hfc : findOrCreate users fu (jsOrStr (normalizePhoneNumber (some phone)) phone)
    (some input.patientName) with ⟨user, users1⟩
  rw [hfc] at hok
  dsimp only at hok
  cases hv : validateAppointmentTime cfg now input.appointmentDate input.appointmentTime with
  | error e =>
    rw [hv] at hok
    cases hok
  | ok u =>
    rw [hv] at hok
    cases hcc : checkConflicts cfg db input.appointmentDate input.appointmentTime none with
    | error e =>
      rw [hcc] at hok
      cases hok
    | ok u2 =>
      rw [hcc] at hok
      rcases hrc : repoCreate cfg now db fa input user.id with ⟨appointment, db1⟩
      rw [hrc] at hok
      dsimp only at hok
      injection hok with hok
      have ha : appointment = a := congrArg Prod.fst hok
      have happ : appointment.patient_phone = input.patientPhone := by
        unfold repoCreate at hrc
        dsimp only at hrc
        have := congrArg Prod.fst hrc
        dsimp only at this
        rw [← this]
      rw [← ha, happ]

/-- Instantiation of the raw-phone persistence property at the unparseable
patient phone `"123"`. -/
theorem createAppointment_rawPatientPhone_witness :
    (repoCreate cfgFix 0 [] 7 inputBadPhone 2).1.patient_phone =
      inputBadPhone.patientPhone :=
  createAppointment_rawPatientPhone cfgFix 0 [] [] 2 7 inputBadPhone "+18185551234"
    (repoCreate cfgFix 0 [] 7 inputBadPhone 2).1 _ _ (by decide) rfl

/-- Membership in the step-15 candidate list. -/
theorem candListFrom_mem :
    ∀ (n : Nat) (cur m : Int),
      m ∈ candListFrom cur n ↔ ∃ k : Nat, k < n ∧ m = cur + 15 * k := by
  intro n
  induction n with
  | zero =>
    intro cur m
    simp [candListFrom]
  | succ j ih =>
    intro cur m
    simp only [candListFrom, List.mem_cons, ih]
    constructor
    · rintro (rfl | ⟨k, hk, rfl⟩)
      · exact ⟨0, by omega, by omega⟩
      · exact ⟨k + 1, by omega, by push_cast; omega⟩
    · rintro ⟨k, hk, rfl⟩
      match k with
      | 0 => exact Or.inl (by omega)
      | k + 1 => exact Or.inr ⟨k, by omega, by push_cast; omega⟩

/-- The candidate list is strictly increasing. -/
theorem candListFrom_pairwise :
    ∀ (n : Nat) (cur : Int), (candListFrom cur n).Pairwise (· < ·) := by
  intro n
  induction n with
  | zero =>
    intro cur
    simp [candListFrom]
  | succ j ih =>
    intro cur
    refine List.Pairwise.cons ?_ (ih (cur + 15))
    intro b hb
    rcases (candListFrom_mem j (cur + 15) b).mp hb with ⟨k, hk, rfl⟩
    omega

/-- The slot loop computes exactly the surviving candidates, rendered as
`HH:mm` strings. -/
theorem slotLoop_eq_filter (cfg : Config) (now d dur : Int) (appts : List Appointment) :
    ∀ (n : Nat) (cur endM : Int), numCandidates cur endM dur = n →
      slotLoop cfg now d dur appts cur endM =
        ((candidateMinutes cur endM dur).filter (slotKeep cfg now d dur appts)).map
          minutesToTimeStr := by
  intro n
  induction n with
  | zero =>
    intro cur endM h
    have hneg : ¬(cur + dur ≤ endM) := by
      unfold numCandidates at h
      by_contra hpos
      rw [if_pos hpos] at h
      omega
    unfold slotLoop candidateMinutes
    rw [dif_neg hneg, h]
    rfl
  | succ j ih =>
    intro cur endM h
    have hguard : cur + dur ≤ endM := by
      unfold numCandidates at h
      by_contra hneg
      rw [if_neg hneg] at h
      omega
    have hnext : numCandidates (cur + 15) endM dur = j := by
      unfold numCandidates at h ⊢
      rw [if_pos hguard] at h
      split_ifs with h2 <;> omega
    unfold candidateMinutes
    rw [h]
    unfold slotLoop
    rw [dif_pos hguard]
    show (if slotKeep cfg now d dur appts cur = true then
            minutesToTimeStr cur :: slotLoop cfg now d dur appts (cur + 15) endM
          else slotLoop cfg now d dur appts (cur + 15) endM) =
      ((candListFrom cur (j + 1)).filter (slotKeep cfg now d dur appts)).map minutesToTimeStr
    rw [show candListFrom cur (j + 1) = cur :: candListFrom (cur + 15) j from rfl]
    rw [List.filter_cons]
    rw [ih (cur + 15) endM hnext]
    unfold candidateMinutes
    rw [hnext]
    by_cases hk : slotKeep cfg now d dur appts cur = true
    · rw [if_pos hk, if_pos hk]
      rfl
    · rw [if_neg hk, if_neg hk]

/-- C7 counterexample: with twenty-one scheduled appointments on the day, the
conflict filter only sees the repository's first twenty rows, so the 09:00
slot is offered although the twenty-first stored appointment (scheduled,
same date) conflicts with it. -/
theorem getAvailableSlots_limit20_cex :
    (morningAppt ∈ db21 ∧ morningAppt.status = .scheduled ∧
      morningAppt.appointment_date = 1 ∧
      hasTimeConflict (localToUtc cfgShortDay 1 "09:00")
        (calculateEndTime (localToUtc cfgShortDay 1 "09:00") 30)
        morningAppt.start_time_utc morningAppt.end_time_utc
        cfgShortDay.APPOINTMENT_BUFFER_MINUTES = true) ∧
    getAvailableSlots cfgShortDay 0 db21 1 30 = .ok ["09:00", "09:15", "09:30"] := by
  constructor
  · decide
  · unfold getAvailableSlots
    rw [if_neg (by decide)]
    dsimp only
    rw [slotLoop_eq_filter cfgShortDay 0 1 30 (repoListForSlots db21 1)
      (numCandidates (businessHoursStart cfgShortDay) (businessHoursEnd cfgShortDay) 30)
      (businessHoursStart cfgShortDay) (businessHoursEnd cfgShortDay) rfl]
    decide

/-- C7 (amended): `getAvailableSlots` on a non-past date returns, in ascending
order, exactly the 15-minute-step candidates `t` from the opening bound with
`t + duration ≤ closing`, minus past candidates and minus candidates that
conflict (buffered, via `hasTimeConflict`) with one of the first twenty
`scheduled`/`confirmed` appointments the repository lists for that date
(default query limit 20); for an empty future day with hours 09:00-10:00 and
30-minute duration it returns exactly `["09:00", "09:15", "09:30"]`. -/
theorem getAvailableSlots_spec :
    (∀ (s e dur m : Int),
      m ∈ candidateMinutes s e dur ↔ ∃ k : Nat, m = s + 15 * k ∧ m + dur ≤ e) ∧
    (∀ (cfg : Config) (now : Int) (db : List Appointment) (d dur : Int),
      isPastDateTime cfg now d "00:00" = false →
      getAvailableSlots cfg now db d dur =
        .ok (((candidateMinutes (businessHoursStart cfg) (businessHoursEnd cfg) dur).filter
          (slotKeep cfg now d dur (repoListForSlots db d))).map minutesToTimeStr)) ∧
    (∀ (s e dur : Int) (keep : Int → Bool),
      ((candidateMinutes s e dur).filter keep).Pairwise (· < ·)) ∧
    getAvailableSlots cfgShortDay 0 [] 1 30 = .ok ["09:00", "09:15", "09:30"] := by
  have hgen : ∀ (cfg : Config) (now : Int) (db : List Appointment) (d dur : Int),
      isPastDateTime cfg now d "00:00" = false →
      getAvailableSlots cfg now db d dur =
        .ok (((candidateMinutes (businessHoursStart cfg) (businessHoursEnd cfg) dur).filter
          (slotKeep cfg now d dur (repoListForSlots db d))).map minutesToTimeStr) := by
    intro cfg now db d dur h
    unfold getAvailableSlots
    rw [if_neg (by rw [h]; exact Bool.false_ne_true)]
    dsimp only
    rw [slotLoop_eq_filter cfg now d dur (repoListForSlots db d)
      (numCandidates (businessHoursStart cfg) (businessHoursEnd cfg) dur)
      (businessHoursStart cfg) (businessHoursEnd cfg) rfl]
  refine ⟨?_, hgen, ?_, ?_⟩
  · intro s e dur m
    unfold candidateMinutes
    rw [candListFrom_mem]
    unfold numCandidates
    constructor
    · rintro ⟨k, hk, rfl⟩
      refine ⟨k, rfl, ?_⟩
      split_ifs at hk <;> omega
    · rintro ⟨k, rfl, hfit⟩
      refine ⟨k, ?_, rfl⟩
      split_ifs with hpos <;> omega
  · intro s e dur keep
    exact (candListFrom_pairwise _ _).sublist (List.filter_sublist _) |>.imp (fun h => h)
  · rw [hgen cfgShortDay 0 [] 1 30 (by decide)]
    decide

/-- Instantiation of the slot characterization: a 45-minute duration on the
short day leaves the single fitting candidate. -/
theorem getAvailableSlots_spec_witness :
    getAvailableSlots cfgShortDay 0 [] 1 45 =
      .ok (((candidateMinutes (businessHoursStart cfgShortDay)
        (businessHoursEnd cfgShortDay) 45).filter
          (slotKeep cfgShortDay 0 1 45 (repoListForSlots [] 1))).map minutesToTimeStr) :=
  getAvailableSlots_spec.2.1 cfgShortDay 0 [] 1 45 (by decide)

end VoiceApi
